import Mathlib

/-!
Verification of the deterministic core of an NES-style falling-block
simulation written in JavaScript.  Each definition below is a shallow
embedding of one source function; the JavaScript numbers that are used as
integers are modelled by `Nat`/`Int`, and the three places where the source
can receive a JavaScript `null` are modelled with `Option`.

JavaScript arithmetic is IEEE-754 double precision.  Wherever the source
multiplies integers large enough that the 53-bit mantissa matters (the
linear-congruential randomizer), the embedding applies the exact
round-to-nearest-even rounding step that the hardware performs, so the
embedding computes bit-for-bit what the JavaScript engine computes.
-/

namespace Tetris

/-! ### IEEE-754 double rounding on integer values

`roundF64 n` is the integer value of the double closest to the integer `n`
(ties to even).  Every integer below `2 ^ 53` is exact; above that the value
is rounded to a multiple of `2 ^ (bitlength - 53)`. -/

/-- Bit length of a natural number, with explicit fuel so that it reduces
by `decide`/`rfl` in the kernel.  96 bits of fuel cover every number that
appears in the randomizer (products are below `2 ^ 63`). -/
def bitLenAux : Nat → Nat → Nat
  | 0, _ => 0
  | fuel + 1, n => if n = 0 then 0 else bitLenAux fuel (n / 2) + 1

def bitLen (n : Nat) : Nat := bitLenAux 96 n

/-- Round an integer to the nearest IEEE-754 double (round to nearest,
ties to even), returned as an integer. -/
def roundF64 (n : Nat) : Nat :=
  let b := bitLen n
  if b ≤ 53 then n
  else
    let k := b - 53
    let p := 2 ^ k
    let q := n / p
    let r := n % p
    let q2 :=
      if 2 * r < p then q
      else if p < 2 * r then q + 1
      else if q % 2 = 0 then q else q + 1
    q2 * p

/-! ### Randomizer (src/domain/randomizer.js) -/

def LCG_MULTIPLIER : Nat := 0x41C64E6D
def LCG_INCREMENT : Nat := 0x3039
def PIECE_COUNT : Nat := 7

/-- `lcgStep` as the JavaScript engine executes it:
`((LCG_MULTIPLIER * current + LCG_INCREMENT) >>> 0)`.
The product and the sum are double-precision operations, hence the two
rounding steps; `>>> 0` truncates and reduces modulo `2 ^ 32`. -/
def lcgStep (current : Nat) : Nat :=
  roundF64 (roundF64 (LCG_MULTIPLIER * current) + LCG_INCREMENT) % 2 ^ 32

/-- The update the specification (and the comment inside `lcgStep` itself)
prescribes: `next = (MULTIPLIER * current + INCREMENT) mod 2^32` in exact
unsigned 32-bit arithmetic. -/
def lcgStepSpec (current : Nat) : Nat :=
  (LCG_MULTIPLIER * current + LCG_INCREMENT) % 2 ^ 32

/-- `lcgToPieceType`: `((lcgValue >>> 10) & 0x7FFFFFFF) % 7 + 1`. -/
def lcgToPieceType (lcgValue : Nat) : Nat :=
  ((lcgValue / 2 ^ 10) &&& 0x7FFFFFFF) % PIECE_COUNT + 1

/-- Randomizer state: `{ seed, current }`. -/
structure Randomizer where
  seed : Nat
  current : Nat
deriving DecidableEq, Repr

/-- `nextPiece` of randomizer.js: step the LCG, derive the piece kind,
return the stepped value as the new `current`. -/
def nextPieceRand (r : Randomizer) : Nat × Randomizer :=
  let newCurrent := lcgStep r.current
  (lcgToPieceType newCurrent, { r with current := newCurrent })

/-- `createRandomizer(seed)`.  When the source is given no seed it draws one
from `Math.random()`; the embedding always takes the seed explicitly. -/
def createRandomizer (seed : Nat) : Randomizer :=
  { seed := seed, current := seed }

/-! ### Scoring (scoring.js) -/

/-- `SCORE_TABLE` lookup; `0` plays the role of the `undefined` a JavaScript
object lookup yields for a key outside the table. -/
def scoreTable (linesCleared : Int) : Int :=
  if linesCleared = 1 then 40
  else if linesCleared = 2 then 100
  else if linesCleared = 3 then 300
  else if linesCleared = 4 then 1200
  else 0

/-- `calculateLineClearScore(linesCleared, level)`.  `!linesCleared` is the
JavaScript falsy test, true exactly at `0` for integer inputs. -/
def calculateLineClearScore (linesCleared level : Int) : Int :=
  if linesCleared = 0 ∨ linesCleared < 1 ∨ 4 < linesCleared then 0
  else
    let lv := if level < 0 then 0 else level
    let base := scoreTable linesCleared
    if base = 0 then 0 else base * (lv + 1)

/-! ### Board (board.js) -/

abbrev Row := List Nat
abbrev Board := List Row

def BOARD_WIDTH : Nat := 10
def BOARD_HEIGHT : Nat := 20
def HIDDEN_ROWS : Nat := 2
def TOTAL_ROWS : Nat := BOARD_HEIGHT + HIDDEN_ROWS

/-- The board shape every board in the program has: `TOTAL_ROWS` rows of
`BOARD_WIDTH` cells (spec §3's board invariant). -/
def WFBoard (b : Board) : Prop :=
  b.length = TOTAL_ROWS ∧ ∀ r ∈ b, r.length = BOARD_WIDTH

instance : DecidablePred WFBoard := fun b => by
  unfold WFBoard; infer_instance

def emptyRow : Row := List.replicate BOARD_WIDTH 0

def createEmptyBoard : Board := List.replicate TOTAL_ROWS emptyRow

/-- `isValidPosition(board, x, y)` (the board argument is unused in the
source as well). -/
def isValidPosition (x y : Int) : Bool :=
  decide (0 ≤ y) && decide (y < (TOTAL_ROWS : Int)) &&
  decide (0 ≤ x) && decide (x < (BOARD_WIDTH : Int))

/-- `getCell`: `null` (here `none`) outside the grid, else `board[y][x]`. -/
def getCell (b : Board) (x y : Int) : Option Nat :=
  if isValidPosition x y then (b[y.toNat]?).bind fun row => row[x.toNat]?
  else none

/-- `setCell`: `null` outside the grid, else a new board with the one cell
replaced (the source deep-copies; the embedding is pure, so `List.set`
expresses the same value). -/
def setCell (b : Board) (x y : Int) (v : Nat) : Option Board :=
  if isValidPosition x y then
    some (b.set y.toNat ((b.getD y.toNat []).set x.toNat v))
  else none

/-- `row.every(cell => cell !== 0)`. -/
def rowComplete (r : Row) : Bool := r.all fun c => c != 0

/-- `isRowComplete(board, rowIndex)`: `false` outside `[0, TOTAL_ROWS)`. -/
def isRowComplete (b : Board) (i : Nat) : Bool :=
  if i < TOTAL_ROWS then ((b[i]?).map rowComplete).getD false else false

/-- `clearLines`: one pass over the row indices `0 .. TOTAL_ROWS-1` keeping
the incomplete rows and counting the complete ones, then that many fresh
empty rows are put on top.  The source does the counting and the keeping in
the same loop; the two passes here compute the same values. -/
def clearLines (b : Board) : Board × Nat :=
  let kept := (List.range TOTAL_ROWS).filterMap fun i =>
    if isRowComplete b i then none else b[i]?
  let cleared := ((List.range TOTAL_ROWS).filter fun i => isRowComplete b i).length
  (List.replicate cleared emptyRow ++ kept, cleared)

/-- Value of an in-range cell, for stating theorems. -/
def valueAt (b : Board) (x y : Int) : Nat := (b.getD y.toNat []).getD x.toNat 0

/-! ### Tetromino catalog (piece.js) -/

structure Cell where
  x : Int
  y : Int
deriving DecidableEq, Repr

def I_ROTS : List (List Cell) :=
  [[⟨0,1⟩,⟨1,1⟩,⟨2,1⟩,⟨3,1⟩], [⟨2,0⟩,⟨2,1⟩,⟨2,2⟩,⟨2,3⟩],
   [⟨0,2⟩,⟨1,2⟩,⟨2,2⟩,⟨3,2⟩], [⟨1,0⟩,⟨1,1⟩,⟨1,2⟩,⟨1,3⟩]]

def O_ROTS : List (List Cell) :=
  [[⟨0,0⟩,⟨1,0⟩,⟨0,1⟩,⟨1,1⟩], [⟨0,0⟩,⟨1,0⟩,⟨0,1⟩,⟨1,1⟩],
   [⟨0,0⟩,⟨1,0⟩,⟨0,1⟩,⟨1,1⟩], [⟨0,0⟩,⟨1,0⟩,⟨0,1⟩,⟨1,1⟩]]

def T_ROTS : List (List Cell) :=
  [[⟨1,0⟩,⟨0,1⟩,⟨1,1⟩,⟨2,1⟩], [⟨1,0⟩,⟨1,1⟩,⟨2,1⟩,⟨1,2⟩],
   [⟨0,1⟩,⟨1,1⟩,⟨2,1⟩,⟨1,2⟩], [⟨1,0⟩,⟨0,1⟩,⟨1,1⟩,⟨1,2⟩]]

def S_ROTS : List (List Cell) :=
  [[⟨1,0⟩,⟨2,0⟩,⟨0,1⟩,⟨1,1⟩], [⟨1,0⟩,⟨1,1⟩,⟨2,1⟩,⟨2,2⟩],
   [⟨1,1⟩,⟨2,1⟩,⟨0,2⟩,⟨1,2⟩], [⟨0,0⟩,⟨0,1⟩,⟨1,1⟩,⟨1,2⟩]]

def Z_ROTS : List (List Cell) :=
  [[⟨0,0⟩,⟨1,0⟩,⟨1,1⟩,⟨2,1⟩], [⟨2,0⟩,⟨1,1⟩,⟨2,1⟩,⟨1,2⟩],
   [⟨0,1⟩,⟨1,1⟩,⟨1,2⟩,⟨2,2⟩], [⟨1,0⟩,⟨0,1⟩,⟨1,1⟩,⟨0,2⟩]]

def J_ROTS : List (List Cell) :=
  [[⟨0,0⟩,⟨0,1⟩,⟨1,1⟩,⟨2,1⟩], [⟨1,0⟩,⟨2,0⟩,⟨1,1⟩,⟨1,2⟩],
   [⟨0,1⟩,⟨1,1⟩,⟨2,1⟩,⟨2,2⟩], [⟨1,0⟩,⟨1,1⟩,⟨0,2⟩,⟨1,2⟩]]

def L_ROTS : List (List Cell) :=
  [[⟨2,0⟩,⟨0,1⟩,⟨1,1⟩,⟨2,1⟩], [⟨1,0⟩,⟨1,1⟩,⟨1,2⟩,⟨2,2⟩],
   [⟨0,1⟩,⟨1,1⟩,⟨2,1⟩,⟨0,2⟩], [⟨0,0⟩,⟨1,0⟩,⟨1,1⟩,⟨1,2⟩]]

/-- `PIECES[type].rotations`; `none` for a key outside 1–7. -/
def pieceRotations (t : Nat) : Option (List (List Cell)) :=
  if t = 1 then some I_ROTS
  else if t = 2 then some O_ROTS
  else if t = 3 then some T_ROTS
  else if t = 4 then some S_ROTS
  else if t = 5 then some Z_ROTS
  else if t = 6 then some J_ROTS
  else if t = 7 then some L_ROTS
  else none

/-- `PIECES[type].spawnX` (duplicated in collision.js as
`getPieceSpawnX`; both tables agree). -/
def spawnXFor (t : Nat) : Int :=
  if t = 1 then 3 else if t = 2 then 4 else if t = 3 then 3
  else if t = 4 then 3 else if t = 5 then 3 else if t = 6 then 3
  else if t = 7 then 3 else 0

/-- `((rotation % 4) + 4) % 4`, with the JavaScript `%` (truncated
remainder, `Int.tmod`); the result is in `0..3`. -/
def rotIndex (rotation : Int) : Nat := ((rotation.tmod 4 + 4).tmod 4).toNat

/-- `getPieceCells(type, x, y, rotation)`. -/
def getPieceCells (t : Nat) (x y : Int) (rotation : Int) : Option (List Cell) :=
  (pieceRotations t).map fun rots =>
    (rots.getD (rotIndex rotation) []).map fun c => ⟨x + c.x, y + c.y⟩

/-- Relative cells of a kind at a normalized rotation index, for stating
theorems and for `rotatePiece`. -/
def rotCells (t : Nat) (idx : Nat) : List Cell :=
  ((pieceRotations t).getD []).getD idx []

/-- Active piece record.  `cells` is `Option` because `lockPiece` tests the
field against the JavaScript falsy values; `type = 0` plays the falsy
number. -/
structure PieceObj where
  type : Nat
  x : Int
  y : Int
  rotation : Int
  cells : Option (List Cell)
deriving DecidableEq, Repr

/-- `createPiece(type)`: `null` for an unknown kind, else the piece at its
spawn position in rotation state 0. -/
def createPiece (t : Nat) : Option PieceObj :=
  (pieceRotations t).map fun rots =>
    { type := t, x := spawnXFor t, y := 0, rotation := 0, cells := some (rots.getD 0 []) }

/-- `rotatePiece(piece, direction)`: new rotation state and the catalog
cells for it. -/
def rotatePieceObj (p : PieceObj) (direction : Int) : PieceObj :=
  let newRotation := rotIndex (p.rotation + direction)
  { p with rotation := (newRotation : Int), cells := some (rotCells p.type newRotation) }

/-! ### Collision (collision.js) -/

/-- Body of the `for (const cell of cells)` loop of `checkCollision`:
a cell blocks when it is out of bounds or lands on a non-empty cell. -/
def cellBlocked (b : Board) (c : Cell) : Bool :=
  if decide (c.x < 0) || decide ((BOARD_WIDTH : Int) ≤ c.x) ||
     decide (c.y < 0) || decide ((TOTAL_ROWS : Int) ≤ c.y) then true
  else
    match getCell b c.x c.y with
    | none => true
    | some v => v != 0

/-- `checkCollision(board, pieceType, x, y, rotation)`: an unknown kind
collides unconditionally, otherwise some absolute cell blocks. -/
def checkCollision (b : Board) (t : Nat) (x y rotation : Int) : Bool :=
  match getPieceCells t x y rotation with
  | none => true
  | some cells => cells.any (cellBlocked b)

/-- `isPieceTouchingFloor`: collision one row below. -/
def isPieceTouchingFloor (b : Board) (p : PieceObj) : Bool :=
  checkCollision b p.type p.x (p.y + 1) p.rotation

/-- `canSpawnPiece(board, pieceType)`: unknown kinds cannot spawn; known
kinds spawn when rotation state 0 does not collide at the spawn
coordinate. -/
def canSpawnPiece (b : Board) (t : Nat) : Bool :=
  if t = 0 ∨ t < 1 ∨ 7 < t then false
  else !(checkCollision b t (spawnXFor t) 0 0)

/-! ### Rotation (rotation.js) -/

structure RotateResult where
  success : Bool
  piece : PieceObj
deriving DecidableEq, Repr

/-- `tryRotate(board, piece, direction)`: the target rotation is tried at
the piece's own `(x, y)` only; a collision cancels the whole rotation. -/
def tryRotate (b : Board) (p : PieceObj) (direction : Int) : RotateResult :=
  let newRotation := rotIndex (p.rotation + direction)
  if checkCollision b p.type p.x p.y (newRotation : Int) then
    ⟨false, p⟩
  else
    ⟨true, rotatePieceObj p direction⟩

/-! ### DAS (das.js) -/

def DAS_DELAY_FRAMES : Int := 16
def DAS_ARR_FRAMES : Int := 6

structure DASState where
  direction : Int
  counter : Int
  isActive : Bool
  lastMoveFrame : Nat
deriving DecidableEq, Repr

def createDAS : DASState :=
  { direction := 0, counter := 0, isActive := false, lastMoveFrame := 0 }

structure DASTickResult where
  shouldMove : Bool
  direction : Int
  das : DASState
deriving DecidableEq, Repr

/-- `tick(das, currentFrame)` of das.js.  The JavaScript `%` on the
auto-repeat test is the truncated remainder (`Int.tmod`). -/
def dasTick (das : DASState) (currentFrame : Nat) : DASTickResult :=
  if das.direction = 0 then ⟨false, 0, createDAS⟩
  else
    let newCounter := das.counter + 1
    if das.counter = 0 then
      ⟨true, das.direction,
        { das with counter := newCounter, isActive := false, lastMoveFrame := currentFrame }⟩
    else if !das.isActive && decide (DAS_DELAY_FRAMES < newCounter) then
      ⟨true, das.direction,
        { das with counter := newCounter, isActive := true, lastMoveFrame := currentFrame }⟩
    else if das.isActive && ((newCounter - DAS_DELAY_FRAMES - 1).tmod DAS_ARR_FRAMES == 0) then
      ⟨true, das.direction,
        { das with counter := newCounter, lastMoveFrame := currentFrame }⟩
    else
      ⟨false, das.direction, { das with counter := newCounter }⟩

/-- `setDirection(das, direction)`: a changed direction resets the timing,
the same direction leaves the state untouched. -/
def setDirection (das : DASState) (direction : Int) : DASState :=
  if direction != das.direction then
    { das with direction := direction, counter := 0, isActive := false, lastMoveFrame := 0 }
  else das

/-- Drive `dasTick` once per frame for `frames` frames starting from a fresh
state whose direction was just set, collecting the frame offsets at which
`shouldMove` is true.  This is the simulation of spec §8's DAS property. -/
def dasMoveFrames (d : Int) (frames : Nat) : List Nat :=
  ((List.range frames).foldl
    (fun (acc : List Nat × DASState) f =>
      let r := dasTick acc.2 f
      (if r.shouldMove then acc.1 ++ [f] else acc.1, r.das))
    ([], setDirection createDAS d)).1

/-! ### Lock pipeline (lock.js) -/

inductive LockError
  | invalidPiece
  | invalidPosition
  | notTouchingFloor
  | placeFailed
deriving DecidableEq, Repr

structure LockResult where
  board : Option Board
  locked : Bool
  error : Option LockError
deriving DecidableEq, Repr

/-- The `for (const cell of piece.cells)` loop of board.js `placePiece`:
set each absolute cell in turn, aborting with `null` when `setCell`
rejects a coordinate. -/
def placeCells (b : Board) (t : Nat) (x y : Int) : List Cell → Option Board
  | [] => some b
  | c :: rest =>
    match setCell b (x + c.x) (y + c.y) t with
    | none => none
    | some nb => placeCells nb t x y rest

/-- `placePiece(board, piece)`. -/
def placePiece (b : Board) (p : PieceObj) : Option Board :=
  placeCells b p.type p.x p.y (p.cells.getD [])

/-- `lockPiece(board, piece)` of lock.js.  The malformed-piece test is the
JavaScript `!piece || !piece.type || !piece.cells`. -/
def lockPiece (b : Board) (p : Option PieceObj) : LockResult :=
  match p with
  | none => ⟨none, false, some .invalidPiece⟩
  | some piece =>
    if piece.type = 0 ∨ piece.cells = none then
      ⟨none, false, some .invalidPiece⟩
    else if checkCollision b piece.type piece.x piece.y piece.rotation then
      ⟨none, false, some .invalidPosition⟩
    else if !(isPieceTouchingFloor b piece) then
      ⟨none, false, some .notTouchingFloor⟩
    else
      match placePiece b piece with
      | none => ⟨none, false, some .placeFailed⟩
      | some nb => ⟨some nb, true, none⟩

/-! ### Gravity (gravity.js), score and level records -/

def GRAVITY_TABLE : List Nat :=
  [48, 43, 38, 33, 28, 23, 18, 13, 8, 6, 5, 5, 5, 4, 4, 4, 3, 3, 3, 2, 2]

def getGravityForLevel (level : Nat) : Nat :=
  GRAVITY_TABLE.getD (min level (GRAVITY_TABLE.length - 1)) 0

structure Gravity where
  level : Nat
  framesPerDrop : Nat
  frameCounter : Nat
deriving DecidableEq, Repr

def createGravity (level : Nat) : Gravity :=
  { level := level, framesPerDrop := getGravityForLevel level, frameCounter := 0 }

def resetCounter (g : Gravity) : Gravity := { g with frameCounter := 0 }

structure ScoreState where
  totalScore : Nat
  linesCleared : Nat
  tetrises : Nat
  softDropCells : Nat
  softDropScore : Nat
  lastClearScore : Nat
  highScore : Nat
deriving DecidableEq, Repr

def createScoreState : ScoreState :=
  { totalScore := 0, linesCleared := 0, tetrises := 0, softDropCells := 0,
    softDropScore := 0, lastClearScore := 0, highScore := 0 }

def LINES_PER_LEVEL : Nat := 10
def MAX_LEVEL : Nat := 99

structure LevelState where
  currentLevel : Nat
  startLevel : Nat
  totalLines : Nat
  linesUntilNext : Nat
  gravity : Gravity
deriving DecidableEq, Repr

def createLevelState (startLevel : Nat) : LevelState :=
  let v := min startLevel MAX_LEVEL
  { currentLevel := v, startLevel := v, totalLines := 0,
    linesUntilNext := LINES_PER_LEVEL, gravity := createGravity v }

structure LockState where
  isLocked : Bool
  lockedAtFrame : Option Nat
  lockedPiece : Option PieceObj
deriving DecidableEq, Repr

def createLockState : LockState :=
  { isLocked := false, lockedAtFrame := none, lockedPiece := none }

/-! ### Aggregate game state (gameState.js) and controller pieces
(gameController.js, gameOver.js, gameLoop.js) -/

inductive GStatus
  | title
  | playing
  | paused
  | gameover
deriving DecidableEq, Repr

structure GOAnim where
  active : Bool
  currentRow : Int
  completed : Bool
deriving DecidableEq, Repr

/-- Aggregate state of gameState.js.  `nextPieceType = 0` models the
JavaScript `null` next piece (both are falsy and outside 1–7, and every
consumer only tests those properties). -/
structure GameState where
  status : GStatus
  board : Board
  currentPiece : Option PieceObj
  nextPieceType : Nat
  score : ScoreState
  level : LevelState
  randomizer : Randomizer
  gravity : Gravity
  das : DASState
  lock : LockState
  frameCount : Nat
  gameOverAnim : Option GOAnim
deriving DecidableEq, Repr

/-- `createGameState(startLevel)`.  The source seeds its randomizer from
`Math.random()`; the embedding receives that fresh seed explicitly. -/
def createGameState (freshSeed : Nat) (startLevel : Nat) : GameState :=
  { status := .title, board := createEmptyBoard, currentPiece := none,
    nextPieceType := 0, score := createScoreState,
    level := createLevelState startLevel, randomizer := createRandomizer freshSeed,
    gravity := createGravity startLevel, das := createDAS, lock := createLockState,
    frameCount := 0, gameOverAnim := none }

/-- `setGameOver`: status `gameover` and the bottom-up fill animation armed
at row 21. -/
def setGameOver (gs : GameState) : GameState :=
  { gs with status := .gameover,
            gameOverAnim := some { active := true, currentRow := 21, completed := false } }

def pauseGame (gs : GameState) : GameState :=
  if gs.status = .playing then { gs with status := .paused } else gs

def resumeGame (gs : GameState) : GameState :=
  if gs.status = .paused then { gs with status := .playing } else gs

/-- gameState.js `returnToTitle`: besides the status it clears the current
piece, the next piece and the game-over animation. -/
def returnToTitleState (gs : GameState) : GameState :=
  { gs with status := .title, currentPiece := none, nextPieceType := 0,
            gameOverAnim := none }

def spawnPieceState (gs : GameState) (p : Option PieceObj) : GameState :=
  { gs with currentPiece := p, das := createDAS, lock := createLockState }

def setNextPieceState (gs : GameState) (t : Nat) : GameState :=
  { gs with nextPieceType := t }

def updateRandomizerState (gs : GameState) (r : Randomizer) : GameState :=
  { gs with randomizer := r }

/-- gameController.js `togglePause`. -/
def togglePause (gs : GameState) : GameState :=
  if gs.status = .playing then { gs with status := .paused }
  else if gs.status = .paused then { gs with status := .playing }
  else gs

/-- gameController.js `returnToTitle`: `createGameState()` — a brand new
initial state (its `Math.random()` seed is passed explicitly). -/
def returnToTitleCtrl (_gs : GameState) (freshSeed : Nat) : GameState :=
  createGameState freshSeed 0

/-- gameOver.js `checkGameOver`. -/
def checkGameOver (b : Board) (t : Nat) : Bool := !(canSpawnPiece b t)

/-- gameLoop.js `resetGravity`. -/
def resetGravityState (gs : GameState) : GameState :=
  { gs with gravity := resetCounter gs.gravity }

/-- gameController.js `spawnNewPiece`: on a blocked spawn it triggers game
over, otherwise it spawns the queued kind, draws a new next piece and
resets the gravity counter.  Second component is the `gameOver` flag. -/
def spawnNewPiece (gs : GameState) : GameState × Bool :=
  let t := gs.nextPieceType
  if checkGameOver gs.board t then (setGameOver gs, true)
  else
    let s1 := spawnPieceState gs (createPiece t)
    let rr := nextPieceRand gs.randomizer
    let s2 := updateRandomizerState (setNextPieceState s1 rr.1) rr.2
    (resetGravityState s2, false)

inductive GEvent
  | pieceFell
  | pieceLocked (linesCleared : Nat)
  | pieceSpawned
  | gameOver
  | animationDone
  | softDropped (cells : Nat)
deriving DecidableEq, Repr

/-- The event `updateGame` emits right after `spawnNewPiece`
(gameController.js lines 364–371): `GAME_OVER` when the spawn reported game
over, else `PIECE_SPAWNED`. -/
def spawnEvent (gameOver : Bool) : GEvent :=
  if gameOver then .gameOver else .pieceSpawned

/-! ### Bounds predicate and concrete fixtures used by witnesses -/

/-- The in-grid predicate `[0, BOARD_WIDTH) × [0, TOTAL_ROWS)`. -/
def inB (x y : Int) : Prop :=
  0 ≤ x ∧ x < (BOARD_WIDTH : Int) ∧ 0 ≤ y ∧ y < (TOTAL_ROWS : Int)

instance (x y : Int) : Decidable (inB x y) := by unfold inB; infer_instance

/-- A board whose only occupied cell is `(4, 21)`. -/
def wOccBoard : Board := createEmptyBoard.set 21 (emptyRow.set 4 5)

/-- A horizontal I piece resting on the floor of an empty board. -/
def wPieceI : PieceObj :=
  { type := 1, x := 3, y := 20, rotation := 0, cells := some (rotCells 1 0) }

/-- A board whose two hidden spawn rows are entirely non-zero. -/
def wSpawnBlockedBoard : Board :=
  List.replicate 2 (List.replicate 10 3) ++ List.replicate 20 emptyRow

/-- A playing state sitting on `wSpawnBlockedBoard` about to spawn an I. -/
def wSpawnBlockedState : GameState :=
  { createGameState 1 0 with
      board := wSpawnBlockedBoard, nextPieceType := 1, status := .playing }

/-- A finished game with 100 points on the board, used to exhibit what the
controller's `returnToTitle` throws away. -/
def wScoredState : GameState :=
  { createGameState 1 0 with
      score := { createScoreState with totalScore := 100 }, status := .gameover }

/-! ## Theorems -/

set_option maxRecDepth 100000

/-- C1: the randomizer does **not** realize
`next = (0x41C64E6D * current + 0x3039) mod 2^32` in exact unsigned 32-bit
arithmetic for every 32-bit `current`.  The JavaScript product is a
double-precision multiplication, and from `current = 8162280` upward the
53-bit mantissa rounds it: at `current = 2 ^ 31` the code produces
`2147495936` where the prescribed formula gives `2147495993`, and at
`current = 8163102` even the returned piece kind differs (3 versus 2). -/
theorem lcgStep_float_divergence :
    lcgStep 2147483648 = 2147495936 ∧
    lcgStepSpec 2147483648 = 2147495993 ∧
    lcgStep 2147483648 ≠ lcgStepSpec 2147483648 ∧
    lcgToPieceType (lcgStep 8163102) = 3 ∧
    lcgToPieceType (lcgStepSpec 8163102) = 2 := by
  refine ⟨by decide, by decide, by decide, by decide, by decide⟩

/-- C7: the line-clear score is the NES table `40/100/300/1200` scaled by
`level + 1`; counts outside 1–4 score 0 and negative levels behave like
level 0. -/
theorem calculateLineClearScore_spec :
    (calculateLineClearScore 1 0 = 40 ∧ calculateLineClearScore 2 0 = 100 ∧
     calculateLineClearScore 3 0 = 300 ∧ calculateLineClearScore 4 0 = 1200) ∧
    (∀ L : Int, 0 ≤ L →
      calculateLineClearScore 1 L = 40 * (L + 1) ∧
      calculateLineClearScore 2 L = 100 * (L + 1) ∧
      calculateLineClearScore 3 L = 300 * (L + 1) ∧
      calculateLineClearScore 4 L = 1200 * (L + 1)) ∧
    (∀ n L : Int, n < 1 ∨ 4 < n → calculateLineClearScore n L = 0) ∧
    (∀ n L : Int, L < 0 → calculateLineClearScore n L = calculateLineClearScore n 0) := by
  refine ⟨by decide, ?_, ?_, ?_⟩
  · intro L hL
    have hneg : ¬ L < 0 := not_lt.mpr hL
    refine ⟨?_, ?_, ?_, ?_⟩ <;>
      simp [calculateLineClearScore, scoreTable, hneg]
  · intro n L h
    unfold calculateLineClearScore
    rw [if_pos]
    omega
  · intro n L hL
    unfold calculateLineClearScore
    by_cases h : n = 0 ∨ n < 1 ∨ 4 < n
    · rw [if_pos h, if_pos h]
    · rw [if_neg h, if_neg h]
      have h1 : (if L < 0 then (0 : Int) else L) = 0 := if_pos hL
      have h2 : (if (0 : Int) < 0 then (0 : Int) else 0) = 0 := by decide
      rw [h1, h2]

/-- Witness for C7 at `linesCleared = 2`, `level = 4`. -/
theorem calculateLineClearScore_spec_witness :
    calculateLineClearScore 2 4 = 500 := by
  have h := (calculateLineClearScore_spec.2.1 4 (by decide)).2.1
  simpa using h

/-- C3: from a fresh DAS state with a direction just set, ticking once per
frame for 60 frames moves exactly at frame offsets
0, 16, 22, 28, 34, 40, 46, 52, 58. -/
theorem das_cadence (d : Int) (hd : d = -1 ∨ d = 1) :
    dasMoveFrames d 60 = [0, 16, 22, 28, 34, 40, 46, 52, 58] := by
  rcases hd with h | h <;> subst h <;> decide

/-- Witness for C3 holding right. -/
theorem das_cadence_witness :
    dasMoveFrames 1 60 = [0, 16, 22, 28, 34, 40, 46, 52, 58] :=
  das_cadence 1 (Or.inr rfl)

/-- C2: `tryRotate` tries the target rotation at the piece's own `(x, y)`
only.  When that collides it fails with the piece returned unchanged (no
alternate offset); when it does not collide it succeeds with only the
rotation state advanced modulo 4 (and the derived cells), position and
kind untouched. -/
theorem tryRotate_no_kick (b : Board) (p : PieceObj) (d : Int)
    (ht : 1 ≤ p.type ∧ p.type ≤ 7) (hr : 0 ≤ p.rotation ∧ p.rotation < 4)
    (hd : d = 1 ∨ d = -1) :
    (checkCollision b p.type p.x p.y (rotIndex (p.rotation + d) : Int) = true →
       tryRotate b p d = ⟨false, p⟩) ∧
    (checkCollision b p.type p.x p.y (rotIndex (p.rotation + d) : Int) = false →
       tryRotate b p d =
         ⟨true, { p with rotation := (rotIndex (p.rotation + d) : Int),
                         cells := some (rotCells p.type (rotIndex (p.rotation + d))) }⟩) := by
  constructor <;> intro h <;> simp [tryRotate, rotatePieceObj, h]

/-- Witness for C2: a horizontal I against the right wall cannot rotate and
is returned unchanged. -/
theorem tryRotate_no_kick_witness :
    tryRotate createEmptyBoard
        { type := 1, x := 8, y := 5, rotation := 0, cells := some (rotCells 1 0) } 1 =
      ⟨false, { type := 1, x := 8, y := 5, rotation := 0, cells := some (rotCells 1 0) }⟩ :=
  (tryRotate_no_kick createEmptyBoard
      { type := 1, x := 8, y := 5, rotation := 0, cells := some (rotCells 1 0) } 1
      (by decide) (by decide) (Or.inl rfl)).1 (by decide)

/-! ### Helper lemmas about the index loop of `clearLines` -/

theorem filterMap_range_keep {α : Type} (p : α → Bool) :
    ∀ l : List α,
      (List.range l.length).filterMap
        (fun i => (l[i]?).bind fun a => if p a then none else some a)
      = l.filter fun a => !p a := by
  intro l
  induction l with
  | nil => simp
  | cons a t ih =>
    rw [List.length_cons, List.range_succ_eq_map, List.filterMap_cons, List.filterMap_map]
    have htail :
        ((fun i => ((a :: t)[i]?).bind fun x => if p x then none else some x) ∘ Nat.succ)
          = fun i => (t[i]?).bind fun x => if p x then none else some x := by
      funext i
      simp
    rw [htail, ih]
    by_cases hpa : p a <;> simp [hpa, List.filter_cons]

theorem filter_range_count {α : Type} (p : α → Bool) :
    ∀ l : List α,
      ((List.range l.length).filter
        (fun i => ((l[i]?).map p).getD false)).length
      = l.countP p := by
  intro l
  induction l with
  | nil => simp
  | cons a t ih =>
    rw [List.length_cons, List.range_succ_eq_map, List.filter_cons, List.filter_map]
    have htail :
        ((fun i => (((a :: t)[i]?).map p).getD false) ∘ Nat.succ)
          = fun i => ((t[i]?).map p).getD false := by
      funext i
      simp
    rw [htail]
    by_cases hpa : p a <;>
      simp [hpa, List.countP_cons, List.length_map, ih]

theorem isRowComplete_eq (b : Board) (i : Nat) (hi : i < TOTAL_ROWS) :
    isRowComplete b i = ((b[i]?).map rowComplete).getD false := by
  unfold isRowComplete
  rw [if_pos hi]

theorem countP_not_add {α : Type} (p : α → Bool) (l : List α) :
    l.countP p + l.countP (fun a => !p a) = l.length := by
  induction l with
  | nil => simp
  | cons a t ih => by_cases h : p a <;> simp [List.countP_cons, h] <;> omega

/-- C4: `clearLines` keeps the incomplete rows in order below exactly one
fresh empty row per complete row, reports the number of complete rows, and
leaves the row count at `TOTAL_ROWS`; with no complete row the board comes
back with identical cell contents and a zero count. -/
theorem clearLines_spec (b : Board) (hb : WFBoard b) :
    (clearLines b).2 = b.countP rowComplete ∧
    (clearLines b).1 =
      List.replicate (b.countP rowComplete) emptyRow ++
        b.filter (fun r => !rowComplete r) ∧
    (clearLines b).1.length = TOTAL_ROWS ∧
    (b.countP rowComplete = 0 → (clearLines b).1 = b ∧ (clearLines b).2 = 0) := by
  obtain ⟨hlen, hrows⟩ := hb
  have hkept :
      (List.range TOTAL_ROWS).filterMap
        (fun i => if isRowComplete b i then none else b[i]?)
      = b.filter fun r => !rowComplete r := by
    rw [← hlen]
    have hcongr := List.filterMap_congr (l := List.range b.length)
      (f := fun i => if isRowComplete b i then none else b[i]?)
      (g := fun i => (b[i]?).bind fun r => if rowComplete r then none else some r)
      (by
        intro i hi
        rw [List.mem_range] at hi
        dsimp only
        rw [isRowComplete_eq b i (by omega)]
        cases h : b[i]? with
        | none => simp
        | some r => by_cases hr : rowComplete r <;> simp [hr])
    rw [hcongr, filterMap_range_keep rowComplete b]
  have hcnt :
      ((List.range TOTAL_ROWS).filter fun i => isRowComplete b i).length
      = b.countP rowComplete := by
    rw [← hlen]
    have hcongr := List.filter_congr (l := List.range b.length)
      (p := fun i => isRowComplete b i)
      (q := fun i => ((b[i]?).map rowComplete).getD false)
      (by
        intro i hi
        rw [List.mem_range] at hi
        dsimp only
        exact isRowComplete_eq b i (by omega))
    rw [hcongr, filter_range_count rowComplete b]
  have hfst :
      (clearLines b).1 =
        List.replicate (b.countP rowComplete) emptyRow ++
          b.filter (fun r => !rowComplete r) := by
    unfold clearLines
    rw [hkept, hcnt]
  have hsnd : (clearLines b).2 = b.countP rowComplete := by
    unfold clearLines
    rw [hcnt]
  refine ⟨hsnd, hfst, ?_, ?_⟩
  · rw [hfst, List.length_append, List.length_replicate]
    have h1 : (b.filter fun r => !rowComplete r).length
        = b.countP fun r => !rowComplete r := by
      rw [List.countP_eq_length_filter]
    rw [h1]
    have h2 := countP_not_add rowComplete b
    omega
  · intro hzero
    refine ⟨?_, by rw [hsnd, hzero]⟩
    rw [hfst, hzero]
    have hall := List.countP_eq_zero.mp hzero
    have : b.filter (fun r => !rowComplete r) = b :=
      List.filter_eq_self.mpr (by
        intro a ha
        simpa using hall a ha)
    rw [this]
    rfl

/-- Witness for C4 on the empty board. -/
theorem clearLines_spec_witness :
    (clearLines createEmptyBoard).1 = createEmptyBoard ∧
      (clearLines createEmptyBoard).2 = 0 :=
  (clearLines_spec createEmptyBoard (by decide)).2.2.2 (by decide)

/-! ### Helper lemmas about cells and collision -/

theorem isValidPosition_iff (x y : Int) : isValidPosition x y = true ↔ inB x y := by
  unfold isValidPosition inB
  simp only [Bool.and_eq_true, decide_eq_true_eq]
  tauto

theorem getCell_none (b : Board) (x y : Int) (h : ¬ inB x y) :
    getCell b x y = none := by
  unfold getCell
  rw [if_neg fun hval => h ((isValidPosition_iff x y).mp hval)]

theorem getCell_eq (b : Board) (hb : WFBoard b) (x y : Int) (h : inB x y) :
    getCell b x y = some (valueAt b x y) := by
  obtain ⟨hlen, hrows⟩ := hb
  obtain ⟨hx0, hxw, hy0, hyr⟩ := h
  have hy : y.toNat < b.length := by omega
  have hmem : b[y.toNat] ∈ b := List.getElem_mem hy
  have hx : x.toNat < b[y.toNat].length := by
    rw [hrows _ hmem]; omega
  unfold getCell valueAt
  rw [if_pos ((isValidPosition_iff x y).mpr ⟨hx0, hxw, hy0, hyr⟩)]
  simp only [List.getD_eq_getElem?_getD, List.getElem?_eq_getElem hy,
    List.getElem?_eq_getElem hx, Option.some_bind, Option.getD_some]

theorem cellBlocked_iff (b : Board) (hb : WFBoard b) (c : Cell) :
    cellBlocked b c = true ↔ ¬ inB c.x c.y ∨ valueAt b c.x c.y ≠ 0 := by
  unfold cellBlocked
  by_cases h : inB c.x c.y
  · have hout : ¬ (decide (c.x < 0) || decide ((BOARD_WIDTH : Int) ≤ c.x) ||
        decide (c.y < 0) || decide ((TOTAL_ROWS : Int) ≤ c.y)) = true := by
      obtain ⟨hx0, hxw, hy0, hyr⟩ := h
      simp only [Bool.or_eq_true, decide_eq_true_eq]
      omega
    rw [if_neg hout, getCell_eq b hb c.x c.y h]
    simp [h, bne_iff_ne]
  · have hout : (decide (c.x < 0) || decide ((BOARD_WIDTH : Int) ≤ c.x) ||
        decide (c.y < 0) || decide ((TOTAL_ROWS : Int) ≤ c.y)) = true := by
      unfold inB at h
      simp only [Bool.or_eq_true, decide_eq_true_eq]
      omega
    rw [if_pos hout]
    simp [h]

theorem getPieceCells_none_iff (t : Nat) (x y r : Int) :
    getPieceCells t x y r = none ↔ t < 1 ∨ 7 < t := by
  unfold getPieceCells pieceRotations
  split_ifs <;> simp_all <;> omega

theorem getPieceCells_valid (t : Nat) (ht1 : 1 ≤ t) (ht7 : t ≤ 7) (x y r : Int) :
    getPieceCells t x y r =
      some ((rotCells t (rotIndex r)).map fun c => Cell.mk (x + c.x) (y + c.y)) := by
  interval_cases t <;> rfl

/-- C5: `checkCollision` is true exactly when the kind is unknown, a target
cell leaves `[0, BOARD_WIDTH) × [0, TOTAL_ROWS)`, or a target cell holds a
non-zero value; and `getCell` answers every out-of-range query with the
`none` sentinel. -/
theorem checkCollision_iff (b : Board) (hb : WFBoard b) (t : Nat) (x y r : Int) :
    (checkCollision b t x y r = true ↔
      t < 1 ∨ 7 < t ∨
      ∃ c ∈ (rotCells t (rotIndex r)).map (fun c => Cell.mk (x + c.x) (y + c.y)),
        ¬ inB c.x c.y ∨ valueAt b c.x c.y ≠ 0) ∧
    (∀ x' y' : Int, ¬ inB x' y' → getCell b x' y' = none) := by
  refine ⟨?_, fun x' y' h => getCell_none b x' y' h⟩
  by_cases ht : 1 ≤ t ∧ t ≤ 7
  · unfold checkCollision
    rw [getPieceCells_valid t ht.1 ht.2 x y r]
    dsimp only
    simp only [List.any_eq_true]
    constructor
    · rintro ⟨c, hc, hcb⟩
      exact Or.inr (Or.inr ⟨c, hc, (cellBlocked_iff b hb c).mp hcb⟩)
    · rintro (h1 | h2 | ⟨c, hc, hp⟩)
      · omega
      · omega
      · exact ⟨c, hc, (cellBlocked_iff b hb c).mpr hp⟩
  · have h1 : getPieceCells t x y r = none :=
      (getPieceCells_none_iff t x y r).mpr (by omega)
    unfold checkCollision
    rw [h1]
    dsimp only
    constructor
    · intro _
      by_cases hlt : t < 1
      · exact Or.inl hlt
      · exact Or.inr (Or.inl (by omega))
    · intro _
      rfl

/-- Witness for C5: the resting I piece overlaps the occupied cell
`(4, 21)` of `wOccBoard`, so `checkCollision` reports true. -/
theorem checkCollision_iff_witness :
    checkCollision wOccBoard 1 3 20 0 = true :=
  ((checkCollision_iff wOccBoard (by decide) 1 3 20 0).1).mpr
    (Or.inr (Or.inr ⟨⟨4, 21⟩, by decide, Or.inr (by decide)⟩))

/-! ### Helper lemmas about `setCell` and `placeCells` -/

theorem setCell_none_iff (b : Board) (x y : Int) (v : Nat) :
    setCell b x y v = none ↔ ¬ inB x y := by
  unfold setCell
  by_cases h : inB x y
  · rw [if_pos ((isValidPosition_iff x y).mpr h)]
    simp [h]
  · rw [if_neg fun hv => h ((isValidPosition_iff x y).mp hv)]
    simp [h]

theorem setCell_some (b : Board) (x y : Int) (v : Nat) (h : inB x y) :
    setCell b x y v =
      some (b.set y.toNat ((b.getD y.toNat []).set x.toNat v)) := by
  unfold setCell
  rw [if_pos ((isValidPosition_iff x y).mpr h)]

theorem WFBoard_set (b : Board) (hb : WFBoard b) (x y : Int) (v : Nat) (h : inB x y) :
    WFBoard (b.set y.toNat ((b.getD y.toNat []).set x.toNat v)) := by
  obtain ⟨hlen, hrows⟩ := hb
  obtain ⟨_, _, hy0, hyr⟩ := h
  have hy : y.toNat < b.length := by omega
  refine ⟨by rw [List.length_set]; exact hlen, ?_⟩
  intro r hr
  rcases List.mem_or_eq_of_mem_set hr with hmem | heq
  · exact hrows r hmem
  · subst heq
    rw [List.length_set, List.getD_eq_getElem?_getD, List.getElem?_eq_getElem hy,
      Option.getD_some]
    exact hrows _ (List.getElem_mem hy)

theorem valueAt_set_self (b : Board) (hb : WFBoard b) (x y : Int) (v : Nat)
    (h : inB x y) :
    valueAt (b.set y.toNat ((b.getD y.toNat []).set x.toNat v)) x y = v := by
  obtain ⟨hlen, hrows⟩ := hb
  obtain ⟨hx0, hxw, hy0, hyr⟩ := h
  have hy : y.toNat < b.length := by omega
  have hxr : x.toNat < (b[y.toNat]?.getD ([] : Row)).length := by
    rw [List.getElem?_eq_getElem hy, Option.getD_some,
      hrows _ (List.getElem_mem hy)]
    omega
  unfold valueAt
  simp only [List.getD_eq_getElem?_getD]
  rw [List.getElem?_set_self hy, Option.getD_some,
    List.getElem?_set_self hxr, Option.getD_some]

theorem valueAt_set_other (b : Board) (x y x' y' : Int) (v : Nat)
    (h : inB x y) (h' : inB x' y') (hne : ¬ (x' = x ∧ y' = y)) :
    valueAt (b.set y.toNat ((b.getD y.toNat []).set x.toNat v)) x' y'
      = valueAt b x' y' := by
  obtain ⟨hx0, hxw, hy0, hyr⟩ := h
  obtain ⟨hx0', hxw', hy0', hyr'⟩ := h'
  by_cases hyy : y'.toNat = y.toNat
  · have hyeq : y' = y := by omega
    have hxx : x'.toNat ≠ x.toNat := by
      intro hx
      exact hne ⟨by omega, hyeq⟩
    unfold valueAt
    rw [hyeq]
    by_cases hy : y.toNat < b.length
    · simp only [List.getD_eq_getElem?_getD]
      rw [List.getElem?_set_self hy, Option.getD_some,
        List.getElem?_set_ne (fun hh => hxx hh.symm)]
    · have hset : b.set y.toNat ((b.getD y.toNat []).set x.toNat v) = b :=
        List.set_eq_of_length_le (by omega)
      rw [hset]
  · unfold valueAt
    simp only [List.getD_eq_getElem?_getD]
    rw [List.getElem?_set_ne (fun hh => hyy hh.symm)]

theorem placeCells_spec (t : Nat) :
    ∀ (cells : List Cell) (b : Board), WFBoard b → ∀ (x y : Int),
      (placeCells b t x y cells = none ↔
        ∃ c ∈ cells, ¬ inB (x + c.x) (y + c.y)) ∧
      (∀ nb, placeCells b t x y cells = some nb →
        WFBoard nb ∧
        (∀ c ∈ cells, valueAt nb (x + c.x) (y + c.y) = t) ∧
        (∀ a e : Int, inB a e →
          (∀ c ∈ cells, ¬ (a = x + c.x ∧ e = y + c.y)) →
          valueAt nb a e = valueAt b a e)) := by
  intro cells
  induction cells with
  | nil =>
    intro b hb x y
    refine ⟨by simp [placeCells], ?_⟩
    intro nb hnb
    simp only [placeCells, Option.some.injEq] at hnb
    subst hnb
    exact ⟨hb, by simp, fun a e _ _ => rfl⟩
  | cons c rest ih =>
    intro b hb x y
    by_cases hc : inB (x + c.x) (y + c.y)
    · have hset := setCell_some b (x + c.x) (y + c.y) t hc
      set b1 := b.set (y + c.y).toNat
        ((b.getD (y + c.y).toNat []).set (x + c.x).toNat t) with hb1
      have hwf1 : WFBoard b1 := WFBoard_set b hb _ _ t hc
      have hstep : placeCells b t x y (c :: rest) = placeCells b1 t x y rest := by
        simp only [placeCells, hset]
      obtain ⟨ihnone, ihsome⟩ := ih b1 hwf1 x y
      constructor
      · rw [hstep, ihnone]
        constructor
        · rintro ⟨c', hc', hni⟩
          exact ⟨c', List.mem_cons_of_mem c hc', hni⟩
        · rintro ⟨c', hc'orc, hni⟩
          rcases List.mem_cons.mp hc'orc with heq | hmem
          · subst heq
            exact absurd hc hni
          · exact ⟨c', hmem, hni⟩
      · intro nb hnb
        rw [hstep] at hnb
        obtain ⟨hwf, hvals, hframe⟩ := ihsome nb hnb
        refine ⟨hwf, ?_, ?_⟩
        · intro c' hc'
          rcases List.mem_cons.mp hc' with heq | hmem
          · subst heq
            by_cases hdup : ∃ c'' ∈ rest,
                x + c''.x = x + c'.x ∧ y + c''.y = y + c'.y
            · obtain ⟨c'', hc'', hxeq, hyeq⟩ := hdup
              rw [← hxeq, ← hyeq]
              exact hvals c'' hc''
            · push_neg at hdup
              have hfr := hframe (x + c'.x) (y + c'.y) hc
                (fun c'' hc'' hand =>
                  hdup c'' hc'' hand.1.symm hand.2.symm)
              rw [hfr]
              exact valueAt_set_self b hb _ _ t hc
          · exact hvals c' hmem
        · intro a e hae hnone
          have h1 : valueAt nb a e = valueAt b1 a e :=
            hframe a e hae fun c'' hc'' =>
              hnone c'' (List.mem_cons_of_mem c hc'')
          have h2 : valueAt b1 a e = valueAt b a e :=
            valueAt_set_other b (x + c.x) (y + c.y) a e t hc hae
              (hnone c (List.mem_cons_self c rest))
          rw [h1, h2]
    · have hsetn : setCell b (x + c.x) (y + c.y) t = none :=
        (setCell_none_iff b _ _ t).mpr hc
      have hstep : placeCells b t x y (c :: rest) = none := by
        simp only [placeCells, hsetn]
      refine ⟨?_, ?_⟩
      · rw [hstep]
        exact ⟨fun _ => ⟨c, List.mem_cons_self c rest, hc⟩, fun _ => rfl⟩
      · intro nb hnb
        rw [hstep] at hnb
        exact absurd hnb (by simp)

/-- C10: `placePiece` performs no occupancy check: whenever all the
piece's absolute cells are in range it returns a board with those cells
holding the piece's kind — even over previously non-zero cells — leaving
every other in-range cell unchanged, and it returns `none` exactly when
some cell is out of range. -/
theorem placePiece_no_occupancy_check (b : Board) (hb : WFBoard b) (p : PieceObj)
    (cs : List Cell) (hcs : p.cells = some cs) :
    (placePiece b p = none ↔ ∃ c ∈ cs, ¬ inB (p.x + c.x) (p.y + c.y)) ∧
    (∀ nb, placePiece b p = some nb →
      WFBoard nb ∧
      (∀ c ∈ cs, valueAt nb (p.x + c.x) (p.y + c.y) = p.type) ∧
      (∀ a e : Int, inB a e →
        (∀ c ∈ cs, ¬ (a = p.x + c.x ∧ e = p.y + c.y)) →
        valueAt nb a e = valueAt b a e)) := by
  unfold placePiece
  rw [hcs, Option.getD_some]
  exact placeCells_spec p.type cs b hb p.x p.y

/-- Witness for C10: locking the I piece over `wOccBoard` overwrites the
already occupied cell `(4, 21)` with kind 1. -/
theorem placePiece_no_occupancy_check_witness :
    ∃ nb, placePiece wOccBoard wPieceI = some nb ∧ valueAt nb 4 21 = 1 := by
  have h := placePiece_no_occupancy_check wOccBoard (by decide) wPieceI
    (rotCells 1 0) rfl
  cases hres : placePiece wOccBoard wPieceI with
  | none => exact absurd (h.1.mp hres) (by decide)
  | some nb => exact ⟨nb, rfl, (h.2 nb hres).2.1 ⟨1, 1⟩ (by decide)⟩

/-- C6: `lockPiece` fails with `invalidPiece` on malformed piece data, with
`invalidPosition` when the piece collides at its own coordinates, with
`notTouchingFloor` when it can still fall; every failure returns a `none`
board (the input board is a value and is never touched), and otherwise it
returns a board with exactly the piece's four cells committed and all
other in-range cells unchanged. -/
theorem lockPiece_spec (b : Board) (hb : WFBoard b) :
    (lockPiece b none = ⟨none, false, some .invalidPiece⟩) ∧
    (∀ q : PieceObj, q.type = 0 ∨ q.cells = none →
      lockPiece b (some q) = ⟨none, false, some .invalidPiece⟩) ∧
    (∀ q : PieceObj, q.type ≠ 0 → q.cells ≠ none →
      checkCollision b q.type q.x q.y q.rotation = true →
      lockPiece b (some q) = ⟨none, false, some .invalidPosition⟩) ∧
    (∀ q : PieceObj, q.type ≠ 0 → q.cells ≠ none →
      checkCollision b q.type q.x q.y q.rotation = false →
      isPieceTouchingFloor b q = false →
      lockPiece b (some q) = ⟨none, false, some .notTouchingFloor⟩) ∧
    (∀ q : PieceObj, q.type ≠ 0 →
      q.cells = some (rotCells q.type (rotIndex q.rotation)) →
      checkCollision b q.type q.x q.y q.rotation = false →
      isPieceTouchingFloor b q = true →
      ∃ nb, lockPiece b (some q) = ⟨some nb, true, none⟩ ∧
        WFBoard nb ∧
        (∀ c ∈ rotCells q.type (rotIndex q.rotation),
          valueAt nb (q.x + c.x) (q.y + c.y) = q.type) ∧
        (∀ a e : Int, inB a e →
          (∀ c ∈ rotCells q.type (rotIndex q.rotation),
            ¬ (a = q.x + c.x ∧ e = q.y + c.y)) →
          valueAt nb a e = valueAt b a e)) := by
  refine ⟨rfl, ?_, ?_, ?_, ?_⟩
  · intro q h
    simp only [lockPiece]
    rw [if_pos h]
  · intro q h1 h2 hcoll
    simp [lockPiece, h1, h2, hcoll]
  · intro q h1 h2 hcoll htouch
    simp [lockPiece, h1, h2, hcoll, htouch]
  · intro q h1 hcells hcoll htouch
    have ht : 1 ≤ q.type ∧ q.type ≤ 7 := by
      by_contra hcon
      have hnone : getPieceCells q.type q.x q.y q.rotation = none :=
        (getPieceCells_none_iff _ _ _ _).mpr (by omega)
      unfold checkCollision at hcoll
      rw [hnone] at hcoll
      simp at hcoll
    have hvalid := getPieceCells_valid q.type ht.1 ht.2 q.x q.y q.rotation
    have hallin : ∀ c ∈ rotCells q.type (rotIndex q.rotation),
        inB (q.x + c.x) (q.y + c.y) := by
      intro c hcmem
      by_contra hni
      have hblocked : cellBlocked b ⟨q.x + c.x, q.y + c.y⟩ = true :=
        (cellBlocked_iff b hb _).mpr (Or.inl hni)
      have hany : ((rotCells q.type (rotIndex q.rotation)).map
          fun c => Cell.mk (q.x + c.x) (q.y + c.y)).any (cellBlocked b) = true :=
        List.any_eq_true.mpr
          ⟨⟨q.x + c.x, q.y + c.y⟩, List.mem_map_of_mem _ hcmem, hblocked⟩
      unfold checkCollision at hcoll
      rw [hvalid] at hcoll
      dsimp only at hcoll
      rw [hcoll] at hany
      exact absurd hany (by simp)
    obtain ⟨pnone, psome⟩ :=
      placeCells_spec q.type (rotCells q.type (rotIndex q.rotation)) b hb q.x q.y
    cases hres : placeCells b q.type q.x q.y
        (rotCells q.type (rotIndex q.rotation)) with
    | none =>
      obtain ⟨c, hcmem, hni⟩ := pnone.mp hres
      exact absurd (hallin c hcmem) hni
    | some nb =>
      obtain ⟨hwf, hvals, hframe⟩ := psome nb hres
      have hc2 : ¬ (q.type = 0 ∨ q.cells = none) := by
        rw [hcells]
        simp [h1]
      have hpp : placePiece b q = some nb := by
        unfold placePiece
        rw [hcells, Option.getD_some]
        exact hres
      refine ⟨nb, ?_, hwf, hvals, hframe⟩
      simp [lockPiece, hc2, hcoll, htouch, hpp]

/-- Witness for C6: the resting I piece locks successfully on the empty
board. -/
theorem lockPiece_spec_witness :
    ∃ nb, lockPiece createEmptyBoard (some wPieceI) = ⟨some nb, true, none⟩ := by
  obtain ⟨nb, hnb, -, -, -⟩ :=
    (lockPiece_spec createEmptyBoard (by decide)).2.2.2.2 wPieceI (by decide) rfl
      (by decide) (by decide)
  exact ⟨nb, hnb⟩

/-- C8: when both hidden spawn rows are entirely non-zero, no kind 1–7 can
spawn, and the controller's spawn attempt flags game over: status becomes
`gameover`, the bottom-up fill animation is armed at row 21, and the frame
emits `GAME_OVER` rather than `PIECE_SPAWNED`. -/
theorem spawn_blocked_gameover (b : Board) (hb : WFBoard b)
    (hfill : ∀ i : Nat, i < BOARD_WIDTH →
      valueAt b (i : Int) 0 ≠ 0 ∧ valueAt b (i : Int) 1 ≠ 0) :
    (∀ t : Nat, 1 ≤ t → t ≤ 7 → canSpawnPiece b t = false) ∧
    (∀ gs : GameState, gs.board = b →
      1 ≤ gs.nextPieceType → gs.nextPieceType ≤ 7 →
      (spawnNewPiece gs).2 = true ∧
      (spawnNewPiece gs).1.status = .gameover ∧
      (spawnNewPiece gs).1.gameOverAnim =
        some { active := true, currentRow := 21, completed := false } ∧
      spawnEvent (spawnNewPiece gs).2 = .gameOver ∧
      spawnEvent (spawnNewPiece gs).2 ≠ .pieceSpawned) := by
  have hcanspawn : ∀ t : Nat, 1 ≤ t → t ≤ 7 → canSpawnPiece b t = false := by
    intro t h1 h7
    unfold canSpawnPiece
    rw [if_neg (by omega)]
    suffices hcol : checkCollision b t (spawnXFor t) 0 0 = true by
      rw [hcol]
      rfl
    unfold checkCollision
    rw [getPieceCells_valid t h1 h7]
    dsimp only
    apply List.any_eq_true.mpr
    interval_cases t
    · exact ⟨⟨3, 1⟩, by decide,
        (cellBlocked_iff b hb _).mpr (Or.inr (by simpa using (hfill 3 (by decide)).2))⟩
    · exact ⟨⟨4, 0⟩, by decide,
        (cellBlocked_iff b hb _).mpr (Or.inr (by simpa using (hfill 4 (by decide)).1))⟩
    · exact ⟨⟨4, 0⟩, by decide,
        (cellBlocked_iff b hb _).mpr (Or.inr (by simpa using (hfill 4 (by decide)).1))⟩
    · exact ⟨⟨4, 0⟩, by decide,
        (cellBlocked_iff b hb _).mpr (Or.inr (by simpa using (hfill 4 (by decide)).1))⟩
    · exact ⟨⟨3, 0⟩, by decide,
        (cellBlocked_iff b hb _).mpr (Or.inr (by simpa using (hfill 3 (by decide)).1))⟩
    · exact ⟨⟨3, 0⟩, by decide,
        (cellBlocked_iff b hb _).mpr (Or.inr (by simpa using (hfill 3 (by decide)).1))⟩
    · exact ⟨⟨5, 0⟩, by decide,
        (cellBlocked_iff b hb _).mpr (Or.inr (by simpa using (hfill 5 (by decide)).1))⟩
  refine ⟨hcanspawn, ?_⟩
  intro gs hgb h1 h7
  have hck : checkGameOver gs.board gs.nextPieceType = true := by
    unfold checkGameOver
    rw [hgb, hcanspawn gs.nextPieceType h1 h7]
    rfl
  refine ⟨?_, ?_, ?_, ?_, ?_⟩ <;>
    simp [spawnNewPiece, hck, setGameOver, spawnEvent]

/-- Witness for C8 on a board with both hidden rows filled with kind 3. -/
theorem spawn_blocked_gameover_witness :
    canSpawnPiece wSpawnBlockedBoard 1 = false ∧
    (spawnNewPiece wSpawnBlockedState).1.status = .gameover := by
  have h := spawn_blocked_gameover wSpawnBlockedBoard (by decide) (by decide)
  exact ⟨h.1 1 (by decide) (by decide),
    (h.2 wSpawnBlockedState rfl (by decide) (by decide)).2.1⟩

/-- C9 (amended): `pauseGame`, `resumeGame` and `togglePause` change only
the status tag; the domain-level `returnToTitle` keeps Board, Score and
Randomizer but also clears the current piece, the next piece and the
game-over animation; the controller-level `returnToTitle` builds a fresh
initial state, so its Board is empty and its Score zeroed regardless of
the input state. -/
theorem status_transitions (gs : GameState) (seed : Nat) :
    pauseGame gs = { gs with status := (pauseGame gs).status } ∧
    resumeGame gs = { gs with status := (resumeGame gs).status } ∧
    togglePause gs = { gs with status := (togglePause gs).status } ∧
    returnToTitleState gs =
      { gs with status := .title, currentPiece := none, nextPieceType := 0,
                gameOverAnim := none } ∧
    returnToTitleCtrl gs seed = createGameState seed 0 ∧
    (returnToTitleCtrl gs seed).board = createEmptyBoard ∧
    (returnToTitleCtrl gs seed).score = createScoreState ∧
    (returnToTitleCtrl gs seed).status = .title := by
  refine ⟨?_, ?_, ?_, rfl, rfl, rfl, rfl, rfl⟩
  · unfold pauseGame
    split <;> rfl
  · unfold resumeGame
    split <;> rfl
  · unfold togglePause
    split
    · rfl
    · split <;> rfl

/-- Witness for C9 at a concrete state and fresh seed. -/
theorem status_transitions_witness :
    (returnToTitleCtrl wScoredState 7).score = createScoreState :=
  (status_transitions wScoredState 7).2.2.2.2.2.2.1

/-- Counterexample for C9 as stated: the controller's return-to-title does
not keep the Score (100 points become 0) — it rebuilds a fresh state. -/
theorem returnToTitle_not_component_preserving :
    ¬ ((returnToTitleCtrl wScoredState 7).board = wScoredState.board ∧
       (returnToTitleCtrl wScoredState 7).score = wScoredState.score ∧
       (returnToTitleCtrl wScoredState 7).randomizer = wScoredState.randomizer) := by
  decide

end Tetris
